import Mathlib

/-!
Shallow embedding of the lava consumer session manager and relay
orchestrator (packages `lavasession`, `lavaprotocol`, `rpcconsumer`).
Pure Go functions become Lean functions; methods that mutate the
`ConsumerSessionManager`, a `SingleConsumerSession` or a
`ConsumerSessionsWithProvider` in place become functions returning the
updated record together with an optional error, mirroring the Go
`(..., error)` return convention.  Go `uint64` counters that the code
increments and decrements are modelled as `Nat` with explicit `% 2^64`
where wraparound is reachable.  Go maps are modelled as association
lists whose insertion discipline copies the source (`insert only when
the key is absent`); `rand.Intn(n)` is modelled by an explicit draw
argument carrying the hypothesis `draw < n`.
-/

namespace Lava

/-- The Go `uint64` modulus. -/
def U64 : Nat := 2 ^ 64

/-! ## Constants from `lavasession` (src/protocol/lavasession/common.go) -/

def MaxConsecutiveConnectionAttempts : Nat := 10
def MaxSessionsAllowedPerProvider : Nat := 1000
def MaxAllowedBlockListedSessionPerProvider : Nat := 3
def MaximumNumberOfFailuresAllowedPerConsumerSession : Nat := 3
def RelayNumberIncrement : Nat := 1
def DataReliabilitySessionId : Nat := 0
def DataReliabilityRelayNumber : Nat := 1
def DataReliabilityCuSum : Nat := 0

/-! ## Magic block heights

Modelled from the spec: the `spectypes` block-height sentinels
(`LATEST`, `SAFE`, `FINALIZED`, `EARLIEST`, `NOT_APPLICABLE`) are not
part of the source slice; §6 of the spec lists them as distinct magic
request-block values, all distinct from every concrete (non-negative)
block number.  They are modelled as the distinct negative integers the
chain conventions use. -/

def NOT_APPLICABLE : Int := -1
def LATEST_BLOCK : Int := -2
def EARLIEST_BLOCK : Int := -3
def PENDING_BLOCK : Int := -4
def SAFE_BLOCK : Int := -5
def FINALIZED_BLOCK : Int := -6

/-- `lavaprotocol.ReplaceRequestedBlock` (fixated_params_test.go slice,
`lavaprotocol` part): a `switch` on the requested block collapsing the
magic values. -/
def ReplaceRequestedBlock (requestedBlock latestBlock : Int) : Int :=
  if requestedBlock = LATEST_BLOCK then latestBlock
  else if requestedBlock = SAFE_BLOCK then latestBlock
  else if requestedBlock = FINALIZED_BLOCK then latestBlock
  else if requestedBlock = EARLIEST_BLOCK then NOT_APPLICABLE
  else requestedBlock

/-! ## VRF index selection -/

/-- Little-endian `uint32` read of the first four bytes of a VRF
output, as `binary.LittleEndian.Uint32` does on the Go side. -/
def littleEndianUint32 (vrf : List Nat) : Nat :=
  (vrf.getD 0 0) % 256 + 256 * ((vrf.getD 1 0) % 256) +
    256 ^ 2 * ((vrf.getD 2 0) % 256) + 256 ^ 3 * ((vrf.getD 3 0) % 256)

/-- Modelled from the spec: `utils.GetIndexForVrf` is not part of the
source slice.  Per §4.6 the VRF output is mapped to
`idx = VrfToIndex(v_k, N = pairingSize, threshold)` and "if the mapped
value exceeds the threshold, yield no index"; the no-index outcome is
the sentinel `-1` which the caller in
`DataReliabilityThresholdToSession` tests for. -/
def GetIndexForVrf (vrf : List Nat) (providersCount : Nat) (reliabilityThreshold : Nat) : Int :=
  let vrfNum := littleEndianUint32 vrf
  if vrfNum > reliabilityThreshold then -1
  else if providersCount = 0 then -1
  else Int.ofNat (vrfNum % providersCount)

/-- Loop body of `lavaprotocol.DataReliabilityThresholdToSession`: walk
the VRF outputs together with their differentiators in slice order and
insert `indexes[index] = uniqueIdentifiers[vrfIndex]` only when `index`
is not the no-index sentinel and is not already a key of the map. -/
def dataReliabilityThresholdLoop (reliabilityThreshold : Nat) (originalProvidersCount : Nat) :
    List (List Nat × Bool) → List (Int × Bool) → List (Int × Bool)
  | [], indexes => indexes
  | (vrf, uid) :: rest, indexes =>
      let index := GetIndexForVrf vrf originalProvidersCount reliabilityThreshold
      if index = -1 then
        dataReliabilityThresholdLoop reliabilityThreshold originalProvidersCount rest indexes
      else if (indexes.lookup index).isSome then
        dataReliabilityThresholdLoop reliabilityThreshold originalProvidersCount rest indexes
      else
        dataReliabilityThresholdLoop reliabilityThreshold originalProvidersCount rest
          (indexes ++ [(index, uid)])

/-- `lavaprotocol.DataReliabilityThresholdToSession`: the Go
`map[int64]bool` is modelled as an association list with
insert-if-absent discipline, so key multiplicity and the kept value are
exactly those of the source. -/
def DataReliabilityThresholdToSession (vrfs : List (List Nat)) (uniqueIdentifiers : List Bool)
    (reliabilityThreshold : Nat) (originalProvidersCount : Nat) : List (Int × Bool) :=
  dataReliabilityThresholdLoop reliabilityThreshold originalProvidersCount
    (vrfs.zip uniqueIdentifiers) []

/-! ## Reliability result comparison (`lavaprotocol`) -/

/-- A relay result as used by the reliability comparison: only the
reply data takes part in `bytes.Compare`; the request/provider fields
ride along into the emitted conflict. -/
structure RelayResult where
  replyData : List Nat
  requestId : Nat
  providerAddress : String
  deriving DecidableEq, Repr

/-- `conflicttypes.ResponseConflict`: the pair of conflicting relay
results (`ConflictRelayData0`, `ConflictRelayData1`). -/
structure ResponseConflict where
  relayData0 : RelayResult
  relayData1 : RelayResult
  deriving DecidableEq, Repr

/-- `lavaprotocol.compareRelaysFindConflict`: equal reply data means no
conflict, anything else produces the conflict record. -/
def compareRelaysFindConflict (result1 result2 : RelayResult) : Bool × Option ResponseConflict :=
  if result1.replyData = result2.replyData then (false, none)
  else (true, some ⟨result1, result2⟩)

/-- First loop of `lavaprotocol.VerifyReliabilityResults`: for each
data-reliability result compared against the original, the source
REPLACES the conflict list (`conflicts = []*...{detectionMessage}`)
rather than appending, so only the last mismatching audit survives. -/
def verifyReliabilityOriginalLoop (originalResult : RelayResult) :
    List RelayResult → Bool × List ResponseConflict → Bool × List ResponseConflict
  | [], acc => acc
  | r :: rest, acc =>
      match compareRelaysFindConflict originalResult r with
      | (true, some detectionMessage) =>
          verifyReliabilityOriginalLoop originalResult rest (true, [detectionMessage])
      | _ => verifyReliabilityOriginalLoop originalResult rest acc

/-- Second, pairwise loop of `VerifyReliabilityResults`
(`idx1 < idx2` over the data-reliability results, appending each
mismatching pair). -/
def verifyReliabilityCrossLoop : List RelayResult → List ResponseConflict
  | [] => []
  | r :: rest =>
      rest.filterMap (fun r2 =>
        match compareRelaysFindConflict r r2 with
        | (true, some c) => some c
        | _ => none) ++ verifyReliabilityCrossLoop rest

/-- `lavaprotocol.VerifyReliabilityResults` (the
`totalNumberOfSessions` argument only feeds logging in the source and
is kept for signature fidelity). -/
def VerifyReliabilityResults (originalResult : RelayResult)
    (dataReliabilityResults : List RelayResult) (totalNumberOfSessions : Nat) :
    Bool × List ResponseConflict :=
  let _ := totalNumberOfSessions
  let (conflict, conflicts) :=
    verifyReliabilityOriginalLoop originalResult dataReliabilityResults (false, [])
  if conflict then (conflict, conflicts ++ verifyReliabilityCrossLoop dataReliabilityResults)
  else (conflict, conflicts)

/-! ## Session manager data model (`lavasession`) -/

/-- Errors surfaced by the consumer session manager.  Errors that the
source slice only references (registered sdk errors) are represented by
their identity; `goNilDereference` models the Go `nil`-map-value
dereference that `csm.pairing[providerAddress]` can produce when the
pairing map misses an address present in `pairingAddresses`. -/
inductive SessionError where
  | staleEpoch
  | pairingListEmpty
  | unreachableCode
  | epochMismatch
  | addressIndexWasNotFound
  | sessionIsAlreadyBlockListed
  | negativeComputeUnitAmount
  | dataReliabilityIndexOutOfRange
  | dataReliabilityIndexRequestedIsOriginalProvider
  | dataReliabilityEpochMismatch
  | dataReliabilityAlreadySentThisEpoch
  | noDataReliabilitySessionWasCreated
  | failedToConnectToEndPointForDataReliability
  | goNilDereference
  deriving DecidableEq, Repr

/-- `lavasession.SingleConsumerSession`: the per-(provider, session-id)
relay slot.  `qosTotalRelays` is `QoSInfo.TotalRelays`; the remaining
QoS score fields are not read by any operation modelled here. -/
structure SingleConsumerSession where
  sessionId : Nat
  cuSum : Nat
  latestRelayCu : Nat
  qosTotalRelays : Nat
  relayNum : Nat
  latestBlock : Int
  consecutiveNumberOfFailures : Nat
  blockListed : Bool
  deriving DecidableEq, Repr

/-- `lavasession.ConsumerSessionsWithProvider` (provider entry): the
fields the modelled operations read and write.  `drSession` is the
`Sessions[DataReliabilitySessionId]` slot (the single reserved audit
session). -/
structure ConsumerSessionsWithProvider where
  publicLavaAddress : String
  usedComputeUnits : Nat
  maxComputeUnits : Nat
  pairingEpoch : Nat
  drSession : Option SingleConsumerSession
  deriving DecidableEq, Repr

/-- `lavasession.ConsumerSessionManager` shared state.  Go maps become
association lists; `validAddresses` is the Go slice it is. -/
structure CSMState where
  currentEpoch : Nat
  pairing : List (String × ConsumerSessionsWithProvider)
  pairingAddresses : List (Nat × String)
  pairingAddressesLength : Nat
  numberOfResets : Nat
  validAddresses : List String
  addedToPurgeAndReport : List String
  pairingPurge : List (String × ConsumerSessionsWithProvider)
  deriving DecidableEq, Repr

/-- An error received by a release call, reduced to the classifications
the source slice tests: the gRPC status-code equality with
`SessionOutOfSyncError.ABCICode()` and the sdk error identities
`ReportAndBlockProviderError` / `BlockProviderError` (their
registrations are outside the slice, so the identity tests are carried
as fields). -/
structure RelayError where
  isSessionOutOfSync : Bool
  isReportAndBlockProvider : Bool
  isBlockProvider : Bool
  deriving DecidableEq, Repr

/-! ## Pairing table operations -/

/-- `csm.setValidAddressesToDefaultValue`: rebuild `validAddresses`
from the values of `pairingAddresses`. -/
def setValidAddressesToDefaultValue (pairingAddresses : List (Nat × String)) : List String :=
  pairingAddresses.map (fun p => p.2)

/-- `csm.UpdateAllProviders`: the atomic epoch rotation.  The probe
scheduling in the source's `defer` is I/O and is outside the state
transition. -/
def UpdateAllProviders (csm : CSMState) (epoch : Nat)
    (pairingList : List (Nat × ConsumerSessionsWithProvider)) :
    Option SessionError × CSMState :=
  if epoch ≤ csm.currentEpoch then (some .staleEpoch, csm)
  else
    let pairingAddresses := pairingList.map (fun ip => (ip.1, ip.2.publicLavaAddress))
    (none,
      { csm with
          currentEpoch := epoch
          pairingAddresses := pairingAddresses
          addedToPurgeAndReport := []
          pairingAddressesLength := pairingList.length
          numberOfResets := 0
          pairingPurge := csm.pairing
          pairing := pairingList.map (fun ip => (ip.2.publicLavaAddress, ip.2))
          validAddresses := setValidAddressesToDefaultValue pairingAddresses })

/-- `csm.getValidProviderAddress` inner loop: walk `validAddresses`,
counting only the non-ignored entries, and return the one whose counter
hits the drawn index. -/
def validAddressLoop (ignoredProvidersList : List String) (validAddressIndex : Nat) :
    List String → Option String
  | [] => none
  | a :: rest =>
      if a ∈ ignoredProvidersList then validAddressLoop ignoredProvidersList validAddressIndex rest
      else if validAddressIndex = 0 then some a
      else validAddressLoop ignoredProvidersList (validAddressIndex - 1) rest

/-- `csm.getValidProviderAddress`: `rand.Intn(totalValidLength)` is
modelled by the explicit `validAddressIndex` draw; `totalValidLength`
is the SIGNED difference `len(validAddresses) - len(ignoredProviders)`
exactly as the source computes it. -/
def getValidProviderAddress (validAddresses ignoredProvidersList : List String)
    (validAddressIndex : Nat) : Except SessionError String :=
  let totalValidLength : Int :=
    (validAddresses.length : Int) - (ignoredProvidersList.length : Int)
  if totalValidLength ≤ 0 then .error .pairingListEmpty
  else
    match validAddressLoop ignoredProvidersList validAddressIndex validAddresses with
    | some a => .ok a
    | none => .error .unreachableCode

/-- `csm.removeAddressFromValidAddresses`: drop the first occurrence;
an absent address is `AddressIndexWasNotFoundError`. -/
def removeAddressFromValidAddresses (validAddresses : List String) (address : String) :
    Except SessionError (List String) :=
  match validAddresses with
  | [] => .error .addressIndexWasNotFound
  | a :: rest =>
      if a = address then .ok rest
      else
        match removeAddressFromValidAddresses rest address with
        | .ok l => .ok (a :: l)
        | .error e => .error e

/-- `csm.blockProvider`: a no-op (with `EpochMismatchError`) unless
`sessionEpoch` matches the current epoch; otherwise the address leaves
`validAddresses` (an absent address is logged and tolerated) and, when
reporting, joins `addedToPurgeAndReport` if not already present. -/
def blockProvider (csm : CSMState) (address : String) (reportProvider : Bool)
    (sessionEpoch : Nat) : Option SessionError × CSMState :=
  if sessionEpoch ≠ csm.currentEpoch then (some .epochMismatch, csm)
  else
    let validAddresses :=
      match removeAddressFromValidAddresses csm.validAddresses address with
      | .ok l => l
      | .error _ => csm.validAddresses
    let addedToPurgeAndReport :=
      if reportProvider && !(csm.addedToPurgeAndReport.contains address) then
        csm.addedToPurgeAndReport ++ [address]
      else csm.addedToPurgeAndReport
    (none, { csm with validAddresses := validAddresses,
                      addedToPurgeAndReport := addedToPurgeAndReport })

/-! ## Provider-entry compute-unit accounting

Modelled from the spec: `ConsumerSessionsWithProvider.decreaseUsedComputeUnits`
is not part of the source slice; §4.2 specifies "Subtract `latestRelayCu`
from `entry.usedCU`", and the `usedCU` counter is a `uint64` that is never
driven negative, so the subtraction is guarded. -/
def decreaseUsedComputeUnits (cswp : ConsumerSessionsWithProvider) (cu : Nat) :
    Except SessionError ConsumerSessionsWithProvider :=
  if cswp.usedComputeUnits < cu then .error .negativeComputeUnitAmount
  else .ok { cswp with usedComputeUnits := cswp.usedComputeUnits - cu }

/-- `csm.OnSessionFailure`: applied to the session slot, its provider
entry and the manager state.  The `verifyLock` precondition is the
claim-level precondition "slot lock held" and is outside the state
model; every return carries the state at that return point, so early
returns leave exactly the mutations the source had already made. -/
def OnSessionFailure (csm : CSMState) (consumerSession : SingleConsumerSession)
    (entry : ConsumerSessionsWithProvider) (errorReceived : RelayError) :
    Option SessionError × SingleConsumerSession × ConsumerSessionsWithProvider × CSMState :=
  if consumerSession.blockListed then
    (some .sessionIsAlreadyBlockListed, consumerSession, entry, csm)
  else
    let consumerSession :=
      { consumerSession with
          qosTotalRelays := consumerSession.qosTotalRelays + 1
          consecutiveNumberOfFailures := consumerSession.consecutiveNumberOfFailures + 1 }
    let consumerSessionBlockListed :=
      decide (consumerSession.consecutiveNumberOfFailures >
        MaximumNumberOfFailuresAllowedPerConsumerSession) || errorReceived.isSessionOutOfSync
    let consumerSession :=
      if consumerSessionBlockListed then { consumerSession with blockListed := true }
      else consumerSession
    let cuToDecrease := consumerSession.latestRelayCu
    let consumerSession := { consumerSession with latestRelayCu := 0 }
    match decreaseUsedComputeUnits entry cuToDecrease with
    | .error e => (some e, consumerSession, entry, csm)
    | .ok entry =>
        let blockFlag :=
          errorReceived.isReportAndBlockProvider || errorReceived.isBlockProvider
        let reportFlag := errorReceived.isReportAndBlockProvider
        let forceReport := consumerSessionBlockListed && decide (entry.usedComputeUnits = 0)
        let blockFlag := blockFlag || forceReport
        let reportFlag := reportFlag || forceReport
        if blockFlag then
          match blockProvider csm entry.publicLavaAddress reportFlag entry.pairingEpoch with
          | (some .epochMismatch, csm) => (none, consumerSession, entry, csm)
          | (some e, csm) => (some e, consumerSession, entry, csm)
          | (none, csm) => (none, consumerSession, entry, csm)
        else (none, consumerSession, entry, csm)

/-! ## Data-reliability session operations -/

/-- Modelled from the spec: the fresh audit session created by
`ConsumerSessionsWithProvider.getDataReliabilitySingleConsumerSession`
(not in the source slice).  §4.2: the reserved audit session-id is the
fixed constant `AUDIT_SESSION_ID = 0` and audit CU is 0; counters start
at zero. -/
def freshDataReliabilitySession : SingleConsumerSession :=
  { sessionId := DataReliabilitySessionId
    cuSum := DataReliabilityCuSum
    latestRelayCu := DataReliabilityCuSum
    qosTotalRelays := 0
    relayNum := 0
    latestBlock := 0
    consecutiveNumberOfFailures := 0
    blockListed := false }

/-- Modelled from the spec:
`ConsumerSessionsWithProvider.verifyDataReliabilitySessionWasNotAlreadyCreated`
(not in the source slice).  §4.2: "At most one audit session per
(provider, epoch): a duplicate request returns `AlreadySentThisEpoch`";
a session that already reached `DataReliabilityRelayNumber` relays is
the duplicate, and a provider with no audit session reports
`NoDataReliabilitySessionWasCreated` so the caller creates one. -/
def verifyDataReliabilitySessionWasNotAlreadyCreated
    (cswp : ConsumerSessionsWithProvider) :
    Except SessionError (SingleConsumerSession × Nat) :=
  match cswp.drSession with
  | some s =>
      if s.relayNum ≥ DataReliabilityRelayNumber then
        .error .dataReliabilityAlreadySentThisEpoch
      else .ok (s, cswp.pairingEpoch)
  | none => .error .noDataReliabilitySessionWasCreated

/-- `csm.getDataReliabilityProviderIndex`: bounds-check the VRF index
against `pairingAddressesLength`, reject the original provider's own
index, and hand back the provider entry from the pairing map.  A Go
lookup miss in `csm.pairing` yields a `nil` entry whose later use would
dereference `nil`; that outcome is the explicit `goNilDereference`. -/
def getDataReliabilityProviderIndex (csm : CSMState) (unAllowedAddress : String)
    (index : Nat) :
    Except SessionError (ConsumerSessionsWithProvider × String × Nat) :=
  let currentEpoch := csm.currentEpoch
  if index ≥ csm.pairingAddressesLength then .error .dataReliabilityIndexOutOfRange
  else
    let providerAddress := (csm.pairingAddresses.lookup index).getD ""
    if providerAddress = unAllowedAddress then
      .error .dataReliabilityIndexRequestedIsOriginalProvider
    else
      match csm.pairing.lookup providerAddress with
      | some cswp => .ok (cswp, providerAddress, currentEpoch)
      | none => .error .goNilDereference

/-- `csm.GetDataReliabilitySession`: the endpoint
connection loop (`fetchEndpointFromConsumerSessionsWithProviderWithRetry`)
is network I/O whose outcome enters as the `connected` flag.  On
success the returned slot carries `RelayNum += 1` (uint64). -/
def GetDataReliabilitySession (csm : CSMState) (connected : Bool)
    (originalProviderAddress : String) (index : Nat) (sessionEpoch : Nat) :
    Except SessionError (SingleConsumerSession × String × Nat) :=
  match getDataReliabilityProviderIndex csm originalProviderAddress index with
  | .error e => .error e
  | .ok (consumerSessionWithProvider, providerAddress, currentEpoch) =>
      if sessionEpoch ≠ currentEpoch then .error .dataReliabilityEpochMismatch
      else
        let created : Except SessionError (SingleConsumerSession × Nat) :=
          match verifyDataReliabilitySessionWasNotAlreadyCreated consumerSessionWithProvider with
          | .error .noDataReliabilitySessionWasCreated =>
              if connected then
                .ok (freshDataReliabilitySession, consumerSessionWithProvider.pairingEpoch)
              else .error .failedToConnectToEndPointForDataReliability
          | .error e => .error e
          | .ok sp => .ok sp
        match created with
        | .error e => .error e
        | .ok (consumerSession, pairingEpoch) =>
            let currentEpoch := if currentEpoch ≠ pairingEpoch then pairingEpoch else currentEpoch
            let consumerSession :=
              { consumerSession with relayNum := (consumerSession.relayNum + 1) % U64 }
            .ok (consumerSession, providerAddress, currentEpoch)

/-- `csm.OnDataReliabilitySessionDone`: resets the failure streak,
stores the serviced block and recomputes QoS (the QoS score update
touches only `QoSInfo` report fields, none of which are counters read
here), leaving `CuSum` and `RelayNum` as they are. -/
def OnDataReliabilitySessionDone (consumerSession : SingleConsumerSession)
    (latestServicedBlock : Int) : SingleConsumerSession :=
  { consumerSession with
      consecutiveNumberOfFailures := 0
      latestBlock := latestServicedBlock }

/-- `csm.OnDataReliabilitySessionFailure`: unlike `OnSessionFailure`
the compute units are untouched and `RelayNum -= 1` (uint64) rolls the
counter back for a retry. -/
def OnDataReliabilitySessionFailure (csm : CSMState)
    (consumerSession : SingleConsumerSession) (entry : ConsumerSessionsWithProvider)
    (errorReceived : RelayError) :
    Option SessionError × SingleConsumerSession × CSMState :=
  if consumerSession.blockListed then
    (some .sessionIsAlreadyBlockListed, consumerSession, csm)
  else
    let consumerSession :=
      { consumerSession with
          qosTotalRelays := consumerSession.qosTotalRelays + 1
          consecutiveNumberOfFailures := consumerSession.consecutiveNumberOfFailures + 1
          relayNum := (consumerSession.relayNum + (U64 - 1)) % U64 }
    let consumerSession :=
      if consumerSession.consecutiveNumberOfFailures >
          MaximumNumberOfFailuresAllowedPerConsumerSession then
        { consumerSession with blockListed := true }
      else if errorReceived.isSessionOutOfSync then
        { consumerSession with blockListed := true }
      else consumerSession
    let blockFlag := errorReceived.isReportAndBlockProvider || errorReceived.isBlockProvider
    let reportFlag := errorReceived.isReportAndBlockProvider
    if blockFlag then
      match blockProvider csm entry.publicLavaAddress reportFlag entry.pairingEpoch with
      | (some .epochMismatch, csm) => (none, consumerSession, csm)
      | (some e, csm) => (some e, consumerSession, csm)
      | (none, csm) => (none, consumerSession, csm)
    else (none, consumerSession, csm)

/-! ## Helper lemmas -/

/-- `removeAddressFromValidAddresses` is `List.erase` on a present
address and the not-found error otherwise. -/
theorem removeAddressFromValidAddresses_eq (l : List String) (a : String) :
    removeAddressFromValidAddresses l a =
      if a ∈ l then .ok (l.erase a) else .error .addressIndexWasNotFound := by
  induction l with
  | nil => simp [removeAddressFromValidAddresses]
  | cons b rest ih =>
      by_cases hba : b = a
      · subst hba
        simp [removeAddressFromValidAddresses, List.erase_cons_head]
      · simp only [removeAddressFromValidAddresses, hba, if_false, ih]
        by_cases hmem : a ∈ rest
        · simp [hmem, hba, List.erase_cons_tail, Ne.symm hba]
        · simp [hmem, hba, Ne.symm hba]

/-! ## C8: magic request blocks -/

/-- C8: `ReplaceRequestedBlock` sends `LATEST`, `SAFE` and `FINALIZED`
to the reply's latest block, sends `EARLIEST` to the `NOT_APPLICABLE`
sentinel, and leaves every concrete (non-negative) block number
unchanged. -/
theorem replaceRequestedBlock_magic :
    (∀ latestBlock : Int,
      ReplaceRequestedBlock LATEST_BLOCK latestBlock = latestBlock ∧
      ReplaceRequestedBlock SAFE_BLOCK latestBlock = latestBlock ∧
      ReplaceRequestedBlock FINALIZED_BLOCK latestBlock = latestBlock ∧
      ReplaceRequestedBlock EARLIEST_BLOCK latestBlock = NOT_APPLICABLE) ∧
    (∀ x latestBlock : Int, 0 ≤ x → ReplaceRequestedBlock x latestBlock = x) := by
  constructor
  · intro latestBlock
    refine ⟨?_, ?_, ?_, ?_⟩ <;>
      simp [ReplaceRequestedBlock, LATEST_BLOCK, SAFE_BLOCK, FINALIZED_BLOCK, EARLIEST_BLOCK,
        NOT_APPLICABLE]
  · intro x latestBlock hx
    simp only [ReplaceRequestedBlock, LATEST_BLOCK, SAFE_BLOCK, FINALIZED_BLOCK, EARLIEST_BLOCK,
      NOT_APPLICABLE]
    split_ifs with h1 h2 h3 h4 <;> omega

/-- C8 witness: the concrete block 7 is left unchanged. -/
theorem replaceRequestedBlock_magic_witness :
    ReplaceRequestedBlock 7 5 = 7 :=
  replaceRequestedBlock_magic.2 7 5 (by norm_num)

/-! ## C9: VRF decision determinism -/

/-- C9: `DataReliabilityThresholdToSession` is deterministic — two
calls on identical VRF outputs, differentiators, threshold and
providers count return identical index maps. -/
theorem dataReliabilityThresholdToSession_deterministic
    (vrfs vrfs2 : List (List Nat)) (uniqueIdentifiers uniqueIdentifiers2 : List Bool)
    (threshold threshold2 providersCount providersCount2 : Nat)
    (hv : vrfs = vrfs2) (hu : uniqueIdentifiers = uniqueIdentifiers2)
    (ht : threshold = threshold2) (hn : providersCount = providersCount2) :
    DataReliabilityThresholdToSession vrfs uniqueIdentifiers threshold providersCount =
      DataReliabilityThresholdToSession vrfs2 uniqueIdentifiers2 threshold2 providersCount2 := by
  subst hv hu ht hn
  rfl

/-- C9 witness: the two VRF outputs of the spec's determinism scenario
evaluated twice. -/
theorem dataReliabilityThresholdToSession_deterministic_witness :
    DataReliabilityThresholdToSession [[1, 0, 0, 0], [2, 0, 0, 0]] [false, true] 10 3 =
      DataReliabilityThresholdToSession [[1, 0, 0, 0], [2, 0, 0, 0]] [false, true] 10 3 :=
  dataReliabilityThresholdToSession_deterministic _ _ _ _ _ _ _ _ rfl rfl rfl rfl

/-! ## C2: dedupe keeps the first differentiator, not `true` -/

/-- C2 counterexample: with the caller's differentiator order
`[false, true]` (rpcconsumer_server.go line 372) and two VRF outputs
mapping to the same index 0 under the threshold, the map keeps the
FIRST entry, whose differentiator is `false` — not the one whose
differentiator is `true`. -/
theorem dataReliabilityThresholdToSession_keeps_false_counterexample :
    DataReliabilityThresholdToSession [[0, 0, 0, 0], [0, 0, 0, 0]] [false, true] 10 1 =
      [((0 : Int), false)] ∧
    (DataReliabilityThresholdToSession [[0, 0, 0, 0], [0, 0, 0, 0]] [false, true] 10 1).lookup 0 ≠
      some true := by
  constructor
  · rfl
  · decide

/-- C2 amended: when both VRF outputs map to the same index under the
threshold, the returned map holds that index exactly once with the
value `false` (the first entry, differentiator `false`, is kept); and a
VRF output mapped to the no-index sentinel contributes nothing. -/
theorem dataReliabilityThresholdToSession_dedup (v0 v1 : List Nat)
    (threshold providersCount : Nat)
    (h : GetIndexForVrf v0 providersCount threshold = GetIndexForVrf v1 providersCount threshold)
    (hne : GetIndexForVrf v0 providersCount threshold ≠ -1) :
    DataReliabilityThresholdToSession [v0, v1] [false, true] threshold providersCount =
      [(GetIndexForVrf v0 providersCount threshold, false)] ∧
    (∀ (w0 w1 : List Nat) (u0 u1 : Bool),
      GetIndexForVrf w0 providersCount threshold = -1 →
      DataReliabilityThresholdToSession [w0, w1] [u0, u1] threshold providersCount =
        DataReliabilityThresholdToSession [w1] [u1] threshold providersCount) := by
  constructor
  · simp only [DataReliabilityThresholdToSession, List.zip, List.zipWith,
      dataReliabilityThresholdLoop, hne, if_false, ← h, List.lookup, List.nil_append]
    simp [List.lookup, hne]
  · intro w0 w1 u0 u1 hw
    simp [DataReliabilityThresholdToSession, List.zip, List.zipWith,
      dataReliabilityThresholdLoop, hw]

/-- C2 amended witness: both VRF outputs read as 0, threshold 10,
one provider — the map is exactly `[(0, false)]`. -/
theorem dataReliabilityThresholdToSession_dedup_witness :
    DataReliabilityThresholdToSession [[0, 0, 0, 0], [0, 0, 0, 0]] [false, true] 10 1 =
      [(GetIndexForVrf [0, 0, 0, 0] 1 10, false)] :=
  (dataReliabilityThresholdToSession_dedup [0, 0, 0, 0] [0, 0, 0, 0] 10 1 rfl (by decide)).1

/-! ## C10: failure on an already block-listed session is a no-op -/

/-- C10: calling `OnSessionFailure` on a session whose `BlockListed`
flag is already set returns `SessionIsAlreadyBlockListedError` and
leaves the session, the provider entry and the manager state exactly
as they were. -/
theorem onSessionFailure_blocklisted_noop (csm : CSMState)
    (consumerSession : SingleConsumerSession) (entry : ConsumerSessionsWithProvider)
    (errorReceived : RelayError) (h : consumerSession.blockListed = true) :
    OnSessionFailure csm consumerSession entry errorReceived =
      (some .sessionIsAlreadyBlockListed, consumerSession, entry, csm) := by
  simp [OnSessionFailure, h]

/-- C10 witness: a concrete block-listed session is rejected
unchanged. -/
theorem onSessionFailure_blocklisted_noop_witness :
    OnSessionFailure ⟨3, [], [], 0, 0, ["A"], [], []⟩ ⟨1, 5, 2, 4, 9, 11, 1, true⟩
        ⟨"A", 7, 100, 3, none⟩ ⟨false, false, false⟩ =
      (some .sessionIsAlreadyBlockListed, ⟨1, 5, 2, 4, 9, 11, 1, true⟩,
        ⟨"A", 7, 100, 3, none⟩, ⟨3, [], [], 0, 0, ["A"], [], []⟩) :=
  onSessionFailure_blocklisted_noop _ _ _ _ rfl

/-! ## blockProvider helper facts (shared by the C5 and C6 theorems) -/

/-- At the matching epoch, `blockProvider` succeeds, expels the address
from `validAddresses`, leaves everyone else's membership alone, and
reports exactly when asked to (or when already reported). -/
theorem blockProvider_current_epoch_effect (csm : CSMState) (address : String)
    (reportProvider : Bool) (hnd : csm.validAddresses.Nodup) :
    (blockProvider csm address reportProvider csm.currentEpoch).1 = none ∧
    address ∉ (blockProvider csm address reportProvider csm.currentEpoch).2.validAddresses ∧
    (∀ b, b ≠ address →
      (b ∈ (blockProvider csm address reportProvider csm.currentEpoch).2.validAddresses ↔
        b ∈ csm.validAddresses)) ∧
    (address ∈ (blockProvider csm address reportProvider csm.currentEpoch).2.addedToPurgeAndReport ↔
      (reportProvider = true ∨ address ∈ csm.addedToPurgeAndReport)) := by
  have hguard : ¬csm.currentEpoch ≠ csm.currentEpoch := by simp
  simp only [blockProvider, hguard, if_false, removeAddressFromValidAddresses_eq]
  by_cases hmem : address ∈ csm.validAddresses
  · refine ⟨?_, ?_, ?_, ?_⟩
    · trivial
    · simp only [hmem, if_true]
      exact fun hc => ((List.Nodup.mem_erase_iff hnd).mp hc).1 rfl
    · intro b hb
      simp only [hmem, if_true]
      exact List.mem_erase_of_ne hb
    · by_cases hrep : reportProvider
      · by_cases hin : csm.addedToPurgeAndReport.contains address
        · simp only [hrep, hin]
          simp at hin
          simp [hin]
        · simp only [hrep, hin]
          simp
      · simp [hrep]
  · refine ⟨?_, ?_, ?_, ?_⟩
    · trivial
    · simp only [hmem, if_false]
      simp
    · intro b hb
      simp [hmem]
    · by_cases hrep : reportProvider
      · by_cases hin : csm.addedToPurgeAndReport.contains address
        · simp only [hrep, hin]
          simp at hin
          simp [hin]
        · simp only [hrep, hin]
          simp
      · simp [hrep]

/-! ## C6: blockProvider epoch guard -/

/-- C6: `blockProvider` with a stale session epoch returns
`EpochMismatchError` and leaves the state untouched; with the current
epoch it removes the address from `validAddresses` (membership of every
other address is preserved) and adds it to the reported set exactly
when the report flag is set. -/
theorem blockProvider_spec (csm : CSMState) (address : String) (reportProvider : Bool)
    (sessionEpoch : Nat) (hnd : csm.validAddresses.Nodup) :
    (sessionEpoch ≠ csm.currentEpoch →
      blockProvider csm address reportProvider sessionEpoch = (some .epochMismatch, csm)) ∧
    (sessionEpoch = csm.currentEpoch →
      (blockProvider csm address reportProvider sessionEpoch).1 = none ∧
      address ∉ (blockProvider csm address reportProvider sessionEpoch).2.validAddresses ∧
      (∀ b, b ≠ address →
        (b ∈ (blockProvider csm address reportProvider sessionEpoch).2.validAddresses ↔
          b ∈ csm.validAddresses)) ∧
      (address ∈ (blockProvider csm address reportProvider sessionEpoch).2.addedToPurgeAndReport ↔
        (reportProvider = true ∨ address ∈ csm.addedToPurgeAndReport))) := by
  constructor
  · intro hne
    simp [blockProvider, hne]
  · intro heq
    subst heq
    exact blockProvider_current_epoch_effect csm address reportProvider hnd

/-- C6 witness: at the matching epoch 4, provider "A" leaves the valid
list and is reported; "B" stays valid. -/
theorem blockProvider_spec_witness :
    ((4 : Nat) = (4 : Nat)) ∧
    (blockProvider ⟨4, [], [], 0, 0, ["A", "B"], [], []⟩ "A" true 4).1 = none ∧
    "A" ∉ (blockProvider ⟨4, [], [], 0, 0, ["A", "B"], [], []⟩ "A" true 4).2.validAddresses ∧
    ("A" ∈ (blockProvider ⟨4, [], [], 0, 0, ["A", "B"], [], []⟩ "A" true 4).2.addedToPurgeAndReport ↔
      (true = true ∨ "A" ∈ ([] : List String))) := by
  have h := (blockProvider_spec ⟨4, [], [], 0, 0, ["A", "B"], [], []⟩ "A" true 4
    (by decide)).2 rfl
  exact ⟨rfl, h.1, h.2.1, h.2.2.2⟩

/-! ## C4: epoch rotation -/

/-- C4: `UpdateAllProviders` fails (stale epoch) exactly when
`epoch ≤ currentEpoch`, leaving the state untouched; on success it
advances `currentEpoch`, moves the current pairing to the purge set,
installs the new list by index and by address, empties the reported
set and resets `validAddresses` to exactly the addresses of the new
list. -/
theorem updateAllProviders_rotation (csm : CSMState) (epoch : Nat)
    (pairingList : List (Nat × ConsumerSessionsWithProvider)) :
    ((UpdateAllProviders csm epoch pairingList).1 = some .staleEpoch ↔
      epoch ≤ csm.currentEpoch) ∧
    (epoch ≤ csm.currentEpoch → (UpdateAllProviders csm epoch pairingList).2 = csm) ∧
    (csm.currentEpoch < epoch →
      (UpdateAllProviders csm epoch pairingList).1 = none ∧
      (UpdateAllProviders csm epoch pairingList).2.currentEpoch = epoch ∧
      (UpdateAllProviders csm epoch pairingList).2.pairingPurge = csm.pairing ∧
      (UpdateAllProviders csm epoch pairingList).2.pairing =
        pairingList.map (fun ip => (ip.2.publicLavaAddress, ip.2)) ∧
      (UpdateAllProviders csm epoch pairingList).2.pairingAddresses =
        pairingList.map (fun ip => (ip.1, ip.2.publicLavaAddress)) ∧
      (UpdateAllProviders csm epoch pairingList).2.addedToPurgeAndReport = [] ∧
      (UpdateAllProviders csm epoch pairingList).2.validAddresses =
        pairingList.map (fun ip => ip.2.publicLavaAddress)) := by
  by_cases h : epoch ≤ csm.currentEpoch
  · refine ⟨by simp [UpdateAllProviders, h], fun _ => by simp [UpdateAllProviders, h],
      fun hlt => absurd h (by omega)⟩
  · refine ⟨by simp [UpdateAllProviders, h], fun hle => absurd hle h, fun _ => ?_⟩
    simp [UpdateAllProviders, h, setValidAddressesToDefaultValue, Function.comp]

/-- C4 witness: rotating from epoch 3 to epoch 5 with a one-provider
list installs that provider everywhere and purges the old pairing. -/
theorem updateAllProviders_rotation_witness :
    ((3 : Nat) < 5) ∧
    (UpdateAllProviders ⟨3, [("O", ⟨"O", 1, 10, 3, none⟩)], [(0, "O")], 1, 2, ["O"], ["R"],
        []⟩ 5 [(0, ⟨"P", 0, 20, 5, none⟩)]).1 = none ∧
    (UpdateAllProviders ⟨3, [("O", ⟨"O", 1, 10, 3, none⟩)], [(0, "O")], 1, 2, ["O"], ["R"],
        []⟩ 5 [(0, ⟨"P", 0, 20, 5, none⟩)]).2.validAddresses = ["P"] := by
  have h := (updateAllProviders_rotation ⟨3, [("O", ⟨"O", 1, 10, 3, none⟩)], [(0, "O")], 1, 2,
    ["O"], ["R"], []⟩ 5 [(0, ⟨"P", 0, 20, 5, none⟩)]).2.2 (by norm_num)
  exact ⟨by norm_num, h.1, h.2.2.2.2.2.2⟩

/-! ## C3: provider selection -/

/-- The selection loop returns the draw-th element of the non-ignored
sublist of `validAddresses`. -/
theorem validAddressLoop_eq_getElem (ignoredProvidersList : List String)
    (validAddresses : List String) (validAddressIndex : Nat) :
    validAddressLoop ignoredProvidersList validAddressIndex validAddresses =
      (validAddresses.filter (fun a => decide (a ∉ ignoredProvidersList)))[validAddressIndex]? := by
  induction validAddresses generalizing validAddressIndex with
  | nil => simp [validAddressLoop]
  | cons a rest ih =>
      by_cases hmem : a ∈ ignoredProvidersList
      · simp [validAddressLoop, hmem, ih]
      · rcases validAddressIndex with _ | k
        · simp [validAddressLoop, hmem]
        · simp [validAddressLoop, hmem, ih]

/-- C3 counterexample: with `validAddresses = ["A"]` and the exclusion
set `{"B"}` (an address not currently valid), the difference
`validAddresses \ exclude = ["A"]` is non-empty, yet the signed length
difference is 0 and selection fails with `PairingListEmptyError`. -/
theorem getValidProviderAddress_pairingEmpty_counterexample :
    (["A"].filter (fun a => decide (a ∉ ["B"]))) ≠ [] ∧
    getValidProviderAddress ["A"] ["B"] 0 = .error .pairingListEmpty := by
  constructor
  · decide
  · rfl

/-- C3 amended: selection fails with `PairingListEmptyError` iff the
LENGTH of `validAddresses` is at most the LENGTH of the exclusion set
(the source compares lengths, not the actual set difference); whenever
the exclusion set is smaller and the uniform draw is below the length
difference, the returned address is the draw-th member of
`validAddresses \ exclude`. -/
theorem getValidProviderAddress_amended (validAddresses ignoredProvidersList : List String)
    (validAddressIndex : Nat) (hnd : validAddresses.Nodup) :
    (getValidProviderAddress validAddresses ignoredProvidersList validAddressIndex =
        .error .pairingListEmpty ↔
      validAddresses.length ≤ ignoredProvidersList.length) ∧
    (ignoredProvidersList.length < validAddresses.length →
      validAddressIndex < validAddresses.length - ignoredProvidersList.length →
      ∃ a, getValidProviderAddress validAddresses ignoredProvidersList validAddressIndex =
          .ok a ∧ a ∈ validAddresses ∧ a ∉ ignoredProvidersList) := by
  constructor
  · by_cases h : validAddresses.length ≤ ignoredProvidersList.length
    · have hguard : ((validAddresses.length : Int) - ignoredProvidersList.length) ≤ 0 := by
        omega
      simp [getValidProviderAddress, hguard, h]
    · have hguard : ¬((validAddresses.length : Int) - ignoredProvidersList.length) ≤ 0 := by
        omega
      simp only [getValidProviderAddress, hguard, if_false]
      constructor
      · intro hcontra
        rcases hloop : validAddressLoop ignoredProvidersList validAddressIndex validAddresses with
          _ | a <;> simp [hloop] at hcontra
      · intro hcontra
        exact absurd hcontra h
  · intro hlen hdraw
    have hguard : ¬((validAddresses.length : Int) - ignoredProvidersList.length) ≤ 0 := by
      omega
    -- the filtered list is long enough: the ignored members of a
    -- duplicate-free list are at most the whole exclusion list
    have hsub : validAddresses.filter (fun a => decide (a ∈ ignoredProvidersList)) ⊆
        ignoredProvidersList := by
      intro x hx
      exact of_decide_eq_true (List.mem_filter.mp hx).2
    have hfilnd : (validAddresses.filter (fun a => decide (a ∈ ignoredProvidersList))).Nodup :=
      List.Nodup.filter _ hnd
    have hignlen : (validAddresses.filter (fun a => decide (a ∈ ignoredProvidersList))).length ≤
        ignoredProvidersList.length :=
      List.Subperm.length_le (List.subperm_of_subset hfilnd hsub)
    have hsplit : (validAddresses.filter (fun a => decide (a ∉ ignoredProvidersList))).length +
        (validAddresses.filter (fun a => decide (a ∈ ignoredProvidersList))).length =
        validAddresses.length := by
      have hLF := List.length_eq_length_filter_add (l := validAddresses)
        (fun a => decide (a ∉ ignoredProvidersList))
      have hnegeq : validAddresses.filter (fun a => !decide (a ∉ ignoredProvidersList)) =
          validAddresses.filter (fun a => decide (a ∈ ignoredProvidersList)) := by
        apply List.filter_congr
        intro x _
        by_cases hx : x ∈ ignoredProvidersList <;> simp [hx]
      rw [hnegeq] at hLF
      omega
    have hfl : validAddressIndex <
        (validAddresses.filter (fun a => decide (a ∉ ignoredProvidersList))).length := by
      omega
    refine ⟨(validAddresses.filter (fun a => decide (a ∉ ignoredProvidersList)))[validAddressIndex],
      ?_, ?_, ?_⟩
    · simp only [getValidProviderAddress, hguard, if_false, validAddressLoop_eq_getElem]
      rw [List.getElem?_eq_getElem hfl]
    · have hm : (validAddresses.filter (fun a => decide (a ∉ ignoredProvidersList)))[validAddressIndex] ∈
          validAddresses.filter (fun a => decide (a ∉ ignoredProvidersList)) :=
        List.getElem_mem hfl
      exact (List.mem_filter.mp hm).1
    · have hm : (validAddresses.filter (fun a => decide (a ∉ ignoredProvidersList)))[validAddressIndex] ∈
          validAddresses.filter (fun a => decide (a ∉ ignoredProvidersList)) :=
        List.getElem_mem hfl
      have hpred := (List.mem_filter.mp hm).2
      simpa using hpred

/-- C3 amended witness: three valid providers, one excluded, draw 1
picks "C" — a member of the difference. -/
theorem getValidProviderAddress_amended_witness :
    (["A", "B", "C"] : List String).Nodup ∧
    (∃ a, getValidProviderAddress ["A", "B", "C"] ["B"] 1 = .ok a ∧
      a ∈ ["A", "B", "C"] ∧ a ∉ ["B"]) :=
  ⟨by decide,
    (getValidProviderAddress_amended ["A", "B", "C"] ["B"] 1 (by decide)).2
      (by norm_num) (by norm_num)⟩

/-! ## C1: conflict emission in VerifyReliabilityResults -/

/-- An element delivered by `getLast?` is a member of the list. -/
theorem mem_of_getLast?_eq (l : List RelayResult) (a : RelayResult)
    (h : l.getLast? = some a) : a ∈ l := by
  obtain ⟨hne, rfl⟩ := List.mem_getLast?_eq_getLast (x := a) (by rw [h]; rfl)
  exact List.getLast_mem hne

/-- The original-comparison loop keeps only the LAST mismatching
audit's conflict: the accumulator is overwritten, not extended. -/
theorem verifyReliabilityOriginalLoop_eq (originalResult : RelayResult)
    (drs : List RelayResult) (acc : Bool × List ResponseConflict) :
    verifyReliabilityOriginalLoop originalResult drs acc =
      match (drs.filter (fun r => decide (r.replyData ≠ originalResult.replyData))).getLast? with
      | some r => (true, [⟨originalResult, r⟩])
      | none => acc := by
  induction drs generalizing acc with
  | nil => rfl
  | cons r rest ih =>
      by_cases heq : originalResult.replyData = r.replyData
      · have hpred : (decide (r.replyData ≠ originalResult.replyData)) = false := by
          simp [heq]
        have hstep : verifyReliabilityOriginalLoop originalResult (r :: rest) acc =
            verifyReliabilityOriginalLoop originalResult rest acc := by
          simp [verifyReliabilityOriginalLoop, compareRelaysFindConflict, heq]
        rw [hstep, ih acc, List.filter_cons, hpred]
        rw [if_neg (by simp)]
      · have hpred : (decide (r.replyData ≠ originalResult.replyData)) = true := by
          simp
          exact fun hc => heq hc.symm
        have hstep : verifyReliabilityOriginalLoop originalResult (r :: rest) acc =
            verifyReliabilityOriginalLoop originalResult rest (true, [⟨originalResult, r⟩]) := by
          simp [verifyReliabilityOriginalLoop, compareRelaysFindConflict, heq]
        rw [hstep, ih (true, [⟨originalResult, r⟩]), List.filter_cons, hpred,
          if_pos rfl]
        rcases hf : rest.filter (fun x => decide (x.replyData ≠ originalResult.replyData)) with
          _ | ⟨x, xs⟩
        · rw [hf, List.getLast?_singleton]
          rfl
        · rw [hf, List.getLast?_cons_cons]
          rcases hlast : (x :: xs).getLast? with _ | y
          · exact absurd (List.getLast?_eq_none_iff.mp hlast) (List.cons_ne_nil x xs)
          · rfl

/-- Membership in the pairwise loop: exactly the conflicts of the
ordered index pairs `i < j` whose reply data differ. -/
theorem verifyReliabilityCrossLoop_mem (drs : List RelayResult) (c : ResponseConflict) :
    c ∈ verifyReliabilityCrossLoop drs ↔
      ∃ (i j : Nat) (a b : RelayResult), i < j ∧ drs[i]? = some a ∧ drs[j]? = some b ∧
        a.replyData ≠ b.replyData ∧ c = ⟨a, b⟩ := by
  induction drs with
  | nil => simp [verifyReliabilityCrossLoop]
  | cons r rest ih =>
      simp only [verifyReliabilityCrossLoop, List.mem_append, List.mem_filterMap, ih]
      constructor
      · rintro (⟨r2, hr2, hc⟩ | ⟨i, j, a, b, hij, ha, hb, hne, hceq⟩)
        · by_cases hd : r.replyData = r2.replyData
          · simp [compareRelaysFindConflict, hd] at hc
          · simp only [compareRelaysFindConflict, hd, if_false] at hc
            obtain ⟨j, hj⟩ := List.mem_iff_getElem?.mp hr2
            exact ⟨0, j + 1, r, r2, Nat.succ_pos j, List.getElem?_cons_zero,
              by rw [List.getElem?_cons_succ]; exact hj, hd, (Option.some.inj hc).symm⟩
        · exact ⟨i + 1, j + 1, a, b, by omega,
            by rw [List.getElem?_cons_succ]; exact ha,
            by rw [List.getElem?_cons_succ]; exact hb, hne, hceq⟩
      · rintro ⟨i, j, a, b, hij, ha, hb, hne, hceq⟩
        rcases i with _ | i
        · rcases j with _ | j
          · omega
          · left
            rw [List.getElem?_cons_zero] at ha
            rw [List.getElem?_cons_succ] at hb
            obtain rfl : r = a := by injection ha
            exact ⟨b, List.getElem?_mem hb,
              by simp [compareRelaysFindConflict, hne, hceq]⟩
        · rcases j with _ | j
          · omega
          · right
            rw [List.getElem?_cons_succ] at ha hb
            exact ⟨i, j, a, b, by omega, ha, hb, hne, hceq⟩

/-- C1 counterexample: original reply `0xAA` from B, two audit replies
`0xBB` from A and C.  The claim expects two original-vs-audit conflicts
(B↔A and B↔C); the source overwrites the conflict list on each
original-vs-audit mismatch, so only ONE conflict (B↔C, the last) is
emitted. -/
theorem verifyReliabilityResults_overwrite_counterexample :
    (VerifyReliabilityResults ⟨[170], 0, "B"⟩ [⟨[187], 1, "A"⟩, ⟨[187], 2, "C"⟩] 2).2 =
      [⟨⟨[170], 0, "B"⟩, ⟨[187], 2, "C"⟩⟩] ∧
    (VerifyReliabilityResults ⟨[170], 0, "B"⟩ [⟨[187], 1, "A"⟩, ⟨[187], 2, "C"⟩] 2).2.length ≠
      2 := by
  constructor
  · rfl
  · decide

/-- C1 amended: `VerifyReliabilityResults` reports a conflict iff some
audit reply differs bytewise from the original; the emitted list then
holds exactly ONE original-vs-audit conflict — the one against the LAST
mismatching audit — followed by one conflict for every ordered pair of
audit results whose replies differ from each other (so two audits that
agree with each other but differ from the original yield one conflict,
not two). -/
theorem verifyReliabilityResults_eq (originalResult : RelayResult)
    (dataReliabilityResults : List RelayResult) (totalNumberOfSessions : Nat) :
    VerifyReliabilityResults originalResult dataReliabilityResults totalNumberOfSessions =
      match (dataReliabilityResults.filter
          (fun r => decide (r.replyData ≠ originalResult.replyData))).getLast? with
      | some r =>
          (true, ⟨originalResult, r⟩ :: verifyReliabilityCrossLoop dataReliabilityResults)
      | none => (false, []) := by
  unfold VerifyReliabilityResults
  rw [verifyReliabilityOriginalLoop_eq]
  rcases hf : (dataReliabilityResults.filter
      (fun r => decide (r.replyData ≠ originalResult.replyData))).getLast? with _ | r
  · rw [hf]
    rfl
  · rw [hf]
    rfl

/-- C1 amended: `VerifyReliabilityResults` reports a conflict iff some
audit reply differs bytewise from the original; the emitted list then
holds exactly ONE original-vs-audit conflict — the one against the LAST
mismatching audit — followed by one conflict for every ordered pair of
audit results whose replies differ from each other (so two audits that
agree with each other but differ from the original yield one conflict,
not two). -/
theorem verifyReliabilityResults_amended (originalResult : RelayResult)
    (dataReliabilityResults : List RelayResult) (totalNumberOfSessions : Nat) :
    ((VerifyReliabilityResults originalResult dataReliabilityResults totalNumberOfSessions).1 =
      dataReliabilityResults.any (fun r => decide (r.replyData ≠ originalResult.replyData))) ∧
    ((VerifyReliabilityResults originalResult dataReliabilityResults totalNumberOfSessions).2 =
      match (dataReliabilityResults.filter
          (fun r => decide (r.replyData ≠ originalResult.replyData))).getLast? with
      | some r =>
          ⟨originalResult, r⟩ :: verifyReliabilityCrossLoop dataReliabilityResults
      | none => []) ∧
    (∀ c, c ∈ verifyReliabilityCrossLoop dataReliabilityResults ↔
      ∃ (i j : Nat) (a b : RelayResult), i < j ∧ dataReliabilityResults[i]? = some a ∧
        dataReliabilityResults[j]? = some b ∧ a.replyData ≠ b.replyData ∧ c = ⟨a, b⟩) := by
  refine ⟨?_, ?_, fun c => verifyReliabilityCrossLoop_mem dataReliabilityResults c⟩
  · rw [verifyReliabilityResults_eq]
    rcases hf : (dataReliabilityResults.filter
        (fun r => decide (r.replyData ≠ originalResult.replyData))).getLast? with _ | r
    · have hnil := List.getLast?_eq_none_iff.mp hf
      have hany : dataReliabilityResults.any
          (fun r => decide (r.replyData ≠ originalResult.replyData)) = false := by
        rw [Bool.eq_false_iff]
        intro hany
        obtain ⟨x, hx, hpx⟩ := List.any_eq_true.mp hany
        have hmemf : x ∈ (dataReliabilityResults.filter
            (fun r => decide (r.replyData ≠ originalResult.replyData))) :=
          List.mem_filter.mpr ⟨hx, hpx⟩
        rw [hnil] at hmemf
        simp at hmemf
      rw [hany, hf]
    · have hr := mem_of_getLast?_eq _ _ hf
      have hany : dataReliabilityResults.any
          (fun r => decide (r.replyData ≠ originalResult.replyData)) = true :=
        List.any_eq_true.mpr ⟨r, (List.mem_filter.mp hr).1, (List.mem_filter.mp hr).2⟩
      rw [hany, hf]
  · rw [verifyReliabilityResults_eq]
    rcases hf : (dataReliabilityResults.filter
        (fun r => decide (r.replyData ≠ originalResult.replyData))).getLast? with _ | r
    · rw [hf]
    · rw [hf]

/-! ## C5: OnSessionFailure bookkeeping -/

/-- Explicit form of `OnSessionFailure` on a non-block-listed session
whose pending CU fits the provider's used counter. -/
theorem onSessionFailure_eq (csm : CSMState) (session : SingleConsumerSession)
    (entry : ConsumerSessionsWithProvider) (err : RelayError)
    (hbl : session.blockListed = false)
    (hcu : session.latestRelayCu ≤ entry.usedComputeUnits) :
    OnSessionFailure csm session entry err =
      (let b := decide (session.consecutiveNumberOfFailures + 1 >
          MaximumNumberOfFailuresAllowedPerConsumerSession) || err.isSessionOutOfSync
       let session' : SingleConsumerSession :=
         { session with
             qosTotalRelays := session.qosTotalRelays + 1
             consecutiveNumberOfFailures := session.consecutiveNumberOfFailures + 1
             blockListed := b
             latestRelayCu := 0 }
       let entry' : ConsumerSessionsWithProvider :=
         { entry with usedComputeUnits := entry.usedComputeUnits - session.latestRelayCu }
       let reportFlag := err.isReportAndBlockProvider ||
         (b && decide (entry'.usedComputeUnits = 0))
       let blockFlag := (err.isReportAndBlockProvider || err.isBlockProvider) ||
         (b && decide (entry'.usedComputeUnits = 0))
       if blockFlag then
         match blockProvider csm entry.publicLavaAddress reportFlag entry.pairingEpoch with
         | (some .epochMismatch, csm2) => (none, session', entry', csm2)
         | (some e, csm2) => (some e, session', entry', csm2)
         | (none, csm2) => (none, session', entry', csm2)
       else (none, session', entry', csm)) := by
  have hdec : decreaseUsedComputeUnits entry session.latestRelayCu =
      .ok { entry with usedComputeUnits := entry.usedComputeUnits - session.latestRelayCu } := by
    unfold decreaseUsedComputeUnits
    rw [if_neg (by omega)]
  cases hb : (decide (session.consecutiveNumberOfFailures + 1 >
      MaximumNumberOfFailuresAllowedPerConsumerSession) || err.isSessionOutOfSync) with
  | false => simp [OnSessionFailure, hbl, hdec, hb]
  | true => simp [OnSessionFailure, hbl, hdec, hb]

/-- C5: on a failure of a live session the failure streak and the relay
counter advance, the session block-lists exactly when the new streak
exceeds the allowed maximum (3) or the error is the out-of-sync code,
the pending relay CU is taken back from the provider's used counter and
zeroed on the session, and a session that block-listed while the
provider's used counter is zero gets the provider blocked AND
reported. -/
theorem onSessionFailure_spec (csm : CSMState) (session : SingleConsumerSession)
    (entry : ConsumerSessionsWithProvider) (err : RelayError)
    (hbl : session.blockListed = false)
    (hcu : session.latestRelayCu ≤ entry.usedComputeUnits)
    (hep : entry.pairingEpoch = csm.currentEpoch)
    (hnd : csm.validAddresses.Nodup) :
    (OnSessionFailure csm session entry err).1 = none ∧
    (OnSessionFailure csm session entry err).2.1.consecutiveNumberOfFailures =
      session.consecutiveNumberOfFailures + 1 ∧
    (OnSessionFailure csm session entry err).2.1.qosTotalRelays = session.qosTotalRelays + 1 ∧
    ((OnSessionFailure csm session entry err).2.1.blockListed =
      (decide (session.consecutiveNumberOfFailures + 1 >
        MaximumNumberOfFailuresAllowedPerConsumerSession) || err.isSessionOutOfSync)) ∧
    (OnSessionFailure csm session entry err).2.1.latestRelayCu = 0 ∧
    (OnSessionFailure csm session entry err).2.2.1.usedComputeUnits =
      entry.usedComputeUnits - session.latestRelayCu ∧
    (((OnSessionFailure csm session entry err).2.1.blockListed = true ∧
        entry.usedComputeUnits - session.latestRelayCu = 0) →
      entry.publicLavaAddress ∉ (OnSessionFailure csm session entry err).2.2.2.validAddresses ∧
      entry.publicLavaAddress ∈
        (OnSessionFailure csm session entry err).2.2.2.addedToPurgeAndReport) := by
  rw [onSessionFailure_eq csm session entry err hbl hcu]
  simp only []
  cases hb : (decide (session.consecutiveNumberOfFailures + 1 >
      MaximumNumberOfFailuresAllowedPerConsumerSession) || err.isSessionOutOfSync) with
  | false =>
      simp only [hb, Bool.false_and, Bool.and_false, Bool.or_false]
      by_cases hbf : (err.isReportAndBlockProvider || err.isBlockProvider) = true
      · rw [if_pos hbf, hep]
        obtain ⟨hnone, hnv, hmiff, hrep⟩ :=
          blockProvider_current_epoch_effect csm entry.publicLavaAddress
            err.isReportAndBlockProvider hnd
        rcases hres : blockProvider csm entry.publicLavaAddress err.isReportAndBlockProvider
            csm.currentEpoch with ⟨eopt, csm2⟩
        rw [hres] at hnone
        simp at hnone
        subst hnone
        exact ⟨rfl, rfl, rfl, rfl, rfl, rfl, by intro hcontra; simp at hcontra⟩
      · rw [if_neg hbf]
        exact ⟨rfl, rfl, rfl, rfl, rfl, rfl, by intro hcontra; simp at hcontra⟩
  | true =>
      simp only [hb, Bool.true_and]
      by_cases hz : entry.usedComputeUnits - session.latestRelayCu = 0
      · have hdz : decide (entry.usedComputeUnits - session.latestRelayCu = 0) = true := by
          simp [hz]
        simp only [hdz, Bool.or_true]
        rw [if_pos trivial, hep]
        obtain ⟨hnone, hnv, hmiff, hrep⟩ :=
          blockProvider_current_epoch_effect csm entry.publicLavaAddress true hnd
        rcases hres : blockProvider csm entry.publicLavaAddress true csm.currentEpoch with
          ⟨eopt, csm2⟩
        rw [hres] at hnone hnv hrep
        simp only at hnone hnv hrep
        subst hnone
        refine ⟨rfl, rfl, rfl, rfl, rfl, rfl, fun _ => ⟨hnv, ?_⟩⟩
        exact hrep.mpr (Or.inl trivial)
      · have hdz : decide (entry.usedComputeUnits - session.latestRelayCu = 0) = false := by
          simp [hz]
        simp only [hdz, Bool.or_false]
        by_cases hbf : (err.isReportAndBlockProvider || err.isBlockProvider) = true
        · rw [if_pos hbf, hep]
          obtain ⟨hnone, hnv, hmiff, hrep⟩ :=
            blockProvider_current_epoch_effect csm entry.publicLavaAddress
              err.isReportAndBlockProvider hnd
          rcases hres : blockProvider csm entry.publicLavaAddress err.isReportAndBlockProvider
              csm.currentEpoch with ⟨eopt, csm2⟩
          rw [hres] at hnone hnv hrep
          simp only at hnone hnv hrep
          subst hnone
          exact ⟨rfl, rfl, rfl, rfl, rfl, rfl, fun hcontra => absurd hcontra.2 hz⟩
        · rw [if_neg hbf]
          exact ⟨rfl, rfl, rfl, rfl, rfl, rfl, fun hcontra => absurd hcontra.2 hz⟩

/-- C5 witness: a session with 3 previous failures and 5 pending CU on
a provider with exactly 5 used CU: the fourth failure block-lists the
session, refunds the CU to zero and gets provider "P" blocked and
reported. -/
theorem onSessionFailure_spec_witness :
    ((false : Bool) = false) ∧
    (OnSessionFailure ⟨9, [("P", ⟨"P", 5, 100, 9, none⟩)], [(0, "P")], 1, 0, ["P"], [],
        []⟩ ⟨1, 0, 5, 3, 4, 0, 3, false⟩ ⟨"P", 5, 100, 9, none⟩ ⟨false, false, false⟩).1 =
      none ∧
    (OnSessionFailure ⟨9, [("P", ⟨"P", 5, 100, 9, none⟩)], [(0, "P")], 1, 0, ["P"], [],
        []⟩ ⟨1, 0, 5, 3, 4, 0, 3, false⟩ ⟨"P", 5, 100, 9, none⟩
        ⟨false, false, false⟩).2.1.blockListed = true ∧
    "P" ∈ (OnSessionFailure ⟨9, [("P", ⟨"P", 5, 100, 9, none⟩)], [(0, "P")], 1, 0, ["P"], [],
        []⟩ ⟨1, 0, 5, 3, 4, 0, 3, false⟩ ⟨"P", 5, 100, 9, none⟩
        ⟨false, false, false⟩).2.2.2.addedToPurgeAndReport := by
  have h := onSessionFailure_spec
    ⟨9, [("P", ⟨"P", 5, 100, 9, none⟩)], [(0, "P")], 1, 0, ["P"], [], []⟩
    ⟨1, 0, 5, 3, 4, 0, 3, false⟩ ⟨"P", 5, 100, 9, none⟩ ⟨false, false, false⟩
    rfl (by norm_num) rfl (by decide)
  refine ⟨rfl, h.1, ?_, ?_⟩
  · rw [h.2.2.2.1]
    decide
  · exact (h.2.2.2.2.2.2 ⟨by rw [h.2.2.2.1]; decide, by norm_num⟩).2

/-! ## C7: audit-session relay counter round trip -/

/-- The session returned by `OnDataReliabilitySessionFailure` on a live
session: counters bumped, relay number rolled back one step (uint64),
`cuSum` untouched, block-listing per streak or out-of-sync. -/
theorem onDataReliabilitySessionFailure_session (csm2 : CSMState)
    (s : SingleConsumerSession) (entry2 : ConsumerSessionsWithProvider) (err : RelayError)
    (hbl : s.blockListed = false) :
    (OnDataReliabilitySessionFailure csm2 s entry2 err).2.1 =
      (let s1 : SingleConsumerSession :=
        { s with
            qosTotalRelays := s.qosTotalRelays + 1
            consecutiveNumberOfFailures := s.consecutiveNumberOfFailures + 1
            relayNum := (s.relayNum + (U64 - 1)) % U64 }
       if s1.consecutiveNumberOfFailures > MaximumNumberOfFailuresAllowedPerConsumerSession then
         { s1 with blockListed := true }
       else if err.isSessionOutOfSync then { s1 with blockListed := true }
       else s1) := by
  unfold OnDataReliabilitySessionFailure
  rw [if_neg (by simp [hbl])]
  rcases hres : blockProvider csm2 entry2.publicLavaAddress err.isReportAndBlockProvider
      entry2.pairingEpoch with ⟨eopt, csm3⟩
  rcases eopt with _ | e
  · simp only [hres]
    split_ifs <;> rfl
  · cases e <;> simp only [hres] <;> split_ifs <;> rfl

/-- C7: a successful `GetDataReliabilitySession` hands back the audit
slot with `RelayNum` incremented by one (from the stored audit session,
or from a freshly created one); `OnDataReliabilitySessionFailure` rolls
`RelayNum` back to its pre-acquisition value and leaves `CuSum` alone,
and `OnDataReliabilitySessionDone` touches neither `CuSum` nor
`RelayNum`. -/
theorem dataReliabilitySession_relayNum_roundtrip
    (csm : CSMState) (p : ConsumerSessionsWithProvider) (addr origAddr : String)
    (index sessionEpoch : Nat) (pre : SingleConsumerSession)
    (hi : index < csm.pairingAddressesLength)
    (ha : csm.pairingAddresses.lookup index = some addr)
    (hno : addr ≠ origAddr)
    (hp : csm.pairing.lookup addr = some p)
    (he : sessionEpoch = csm.currentEpoch)
    (hpre : p.drSession = some pre ∨ (p.drSession = none ∧ pre = freshDataReliabilitySession))
    (hrn : pre.relayNum = 0)
    (hbl : pre.blockListed = false) :
    GetDataReliabilitySession csm true origAddr index sessionEpoch =
      .ok ({ pre with relayNum := 1 }, addr, p.pairingEpoch) ∧
    (∀ (csm2 : CSMState) (entry2 : ConsumerSessionsWithProvider) (err : RelayError),
      (OnDataReliabilitySessionFailure csm2 { pre with relayNum := 1 } entry2
          err).2.1.relayNum = pre.relayNum ∧
      (OnDataReliabilitySessionFailure csm2 { pre with relayNum := 1 } entry2
          err).2.1.cuSum = pre.cuSum) ∧
    (∀ (s : SingleConsumerSession) (lb : Int),
      (OnDataReliabilitySessionDone s lb).cuSum = s.cuSum ∧
      (OnDataReliabilitySessionDone s lb).relayNum = s.relayNum) := by
  have hmod1 : (1 : Nat) % U64 = 1 := Nat.mod_eq_of_lt (by norm_num [U64])
  have hmod0 : (1 + (U64 - 1)) % U64 = 0 := by
    have : 1 + (U64 - 1) = U64 := by
      have : 1 ≤ U64 := by norm_num [U64]
      omega
    rw [this, Nat.mod_self]
  have hrecon : ∀ a b : Nat, (if a ≠ b then b else a) = b := by
    intro a b
    by_cases h : a ≠ b
    · simp [h]
    · push_neg at h
      simp [h]
  refine ⟨?_, ?_, fun s lb => ⟨rfl, rfl⟩⟩
  · rcases hpre with hsome | ⟨hnone, hfresh⟩
    · have hverify : verifyDataReliabilitySessionWasNotAlreadyCreated p =
          .ok (pre, p.pairingEpoch) := by
        unfold verifyDataReliabilitySessionWasNotAlreadyCreated
        rw [hsome]
        simp [show ¬(pre.relayNum ≥ DataReliabilityRelayNumber) from by rw [hrn]; decide]
      unfold GetDataReliabilitySession getDataReliabilityProviderIndex
      rw [if_neg (show ¬(index ≥ csm.pairingAddressesLength) by omega), ha]
      simp only [Option.getD_some]
      rw [if_neg hno, hp]
      simp only
      rw [if_neg (show ¬(sessionEpoch ≠ csm.currentEpoch) by omega), hverify]
      simp [hrecon, hrn, hmod1]
    · have hverify : verifyDataReliabilitySessionWasNotAlreadyCreated p =
          .error .noDataReliabilitySessionWasCreated := by
        unfold verifyDataReliabilitySessionWasNotAlreadyCreated
        rw [hnone]
      unfold GetDataReliabilitySession getDataReliabilityProviderIndex
      rw [if_neg (show ¬(index ≥ csm.pairingAddressesLength) by omega), ha]
      simp only [Option.getD_some]
      rw [if_neg hno, hp]
      simp only
      rw [if_neg (show ¬(sessionEpoch ≠ csm.currentEpoch) by omega), hverify]
      subst hfresh
      simp [hrecon, hmod1, freshDataReliabilitySession]
  · intro csm2 entry2 err
    have hbl2 : ({ pre with relayNum := 1 } : SingleConsumerSession).blockListed = false := hbl
    rw [onDataReliabilitySessionFailure_session csm2 _ entry2 err hbl2]
    simp only
    constructor
    · split_ifs <;> simp [hmod0, hrn]
    · split_ifs <;> rfl

/-- C7 witness: a one-provider pairing at epoch 5 with no audit session
yet: acquisition returns the fresh slot with `RelayNum = 1`, and a
failure release rolls `RelayNum` back to the fresh slot's 0. -/
theorem dataReliabilitySession_relayNum_roundtrip_witness :
    GetDataReliabilitySession ⟨5, [("P", ⟨"P", 0, 100, 5, none⟩)], [(0, "P")], 1, 0, ["P"],
        [], []⟩ true "Q" 0 5 =
      .ok ({ freshDataReliabilitySession with relayNum := 1 }, "P", 5) ∧
    (OnDataReliabilitySessionFailure ⟨5, [], [], 0, 0, [], [], []⟩
        { freshDataReliabilitySession with relayNum := 1 } ⟨"P", 0, 100, 5, none⟩
        ⟨false, false, false⟩).2.1.relayNum = freshDataReliabilitySession.relayNum := by
  have h := dataReliabilitySession_relayNum_roundtrip
    ⟨5, [("P", ⟨"P", 0, 100, 5, none⟩)], [(0, "P")], 1, 0, ["P"], [], []⟩
    ⟨"P", 0, 100, 5, none⟩ "P" "Q" 0 5 freshDataReliabilitySession
    (by decide) (by decide) (by decide) (by decide) rfl (Or.inr ⟨rfl, rfl⟩) rfl rfl
  exact ⟨h.1, (h.2.1 ⟨5, [], [], 0, 0, [], [], []⟩ ⟨"P", 0, 100, 5, none⟩
    ⟨false, false, false⟩).1⟩

end Lava
